import Mathlib

/-!
Shallow embedding of the NeuroHelix orchestrator execution engine.

The definitions below are translated from the Python sources:
  * `orchestrator/config/settings_schema.py` (data model),
  * `orchestrator/adapters/gemini_cli.py`    (retry/backoff state machine),
  * `orchestrator/services/manifest.py`      (completion markers, dependency graph),
  * `orchestrator/services/ledger.py`        (ledger entries),
  * `orchestrator/services/runner.py`        (wave scheduler).

Modelling conventions:
  * Wall-clock timestamps (`datetime.now()`) are abstracted away: no claim
    under consideration depends on them, so the timestamp fields of markers
    and ledger entries are omitted.
  * The SHA-256 digest of a file is modelled as the injective function
    `compute_file_hash c = "sha256:" ++ c` on file contents; the digest of a
    real file is determined by (and collision-free in) its content, which is
    the only property the code relies on.  A real digest is never the empty
    string; the model's digest is never empty either.
  * The filesystem is a pair of association lists: file contents keyed by
    output path, and completion-marker sidecars keyed by the sidecar path
    `parent/.nh_status_{stem}.json` derived from the output path.  The
    convention identifies only the directory and the stem of the output, so
    two outputs that differ only in their extension share one sidecar —
    the model preserves that collision.
  * External effects (the `gemini` subprocess and the rate limiter) are
    oracles indexed by the attempt number.
  * The per-wave thread pool gives no intra-wave ordering guarantee; the
    model dispatches the wave's units in list order, one at a time, and
    threads the filesystem state through.
-/

/-- Pipeline wave types in execution order (`WaveType` in settings_schema.py).
`export` is a reserved word in Lean, so that constructor is named `exportW`. -/
inductive WaveType where
  | search
  | aggregator
  | tagger
  | render
  | exportW
  | publish
deriving DecidableEq

/-- Concurrency classes for prompt execution (`ConcurrencyClass`). -/
inductive ConcurrencyClass where
  | sequential
  | low
  | medium
  | high
deriving DecidableEq

/-- Policy configuration for a single prompt (`PromptPolicy`).
`temperature` is a configuration constant never computed with, carried as a
rational. -/
structure PromptPolicy where
  prompt_id : String
  title : String
  wave : WaveType
  category : String
  model : String
  tools : Option String
  temperature : Rat
  token_budget : Nat
  timeout_sec : Nat
  max_retries : Nat
  concurrency_class : ConcurrencyClass
  expected_outputs : String
  prompt : String
  notes : Option String
deriving DecidableEq

/-- Completion status for a single artifact (`CompletionMarker`); the
timestamp fields are abstracted away. -/
structure CompletionMarker where
  prompt_id : String
  exit_code : Int
  retries : Nat
  sha256 : Option String
  error_message : Option String
deriving DecidableEq

/-- Single entry in the execution ledger (`LedgerEntry`); timestamp and
duration fields are abstracted away. -/
structure LedgerEntry where
  run_id : String
  prompt_id : String
  registry_hash : String
  config_fingerprint : String
  success : Bool
  retries : Nat
  output_sha256 : Option String
  dependent_inputs : List String
  output_paths : List String
  error_message : Option String
deriving DecidableEq

/-- Does `need` occur at the very front of `hay`? (char-list helper). -/
def leadsWith : List Char → List Char → Bool
  | [], _ => true
  | _ :: _, [] => false
  | a :: n, b :: h => if a = b then leadsWith n h else false

/-- Does `need` occur as a contiguous run anywhere inside `hay`?
(char-list helper backing Python's substring test `needle in haystack`). -/
def containsSub : List Char → List Char → Bool
  | [], need => need.isEmpty
  | c :: t, need => leadsWith need (c :: t) || containsSub t need

/-- Substring test on strings: Python's `pat in s`. -/
def strContains (s pat : String) : Bool :=
  containsSub s.data pat.data

/-- Python's `str.lower()`, char by char. -/
def toLowerStr (s : String) : String :=
  ⟨s.data.map Char.toLower⟩

/-- Python's slice `s[:n]`. -/
def takeStr (s : String) (n : Nat) : String :=
  ⟨s.data.take n⟩

/-- One step of Python's `s.replace("\x7bdate\x7d", date)`: fuel-indexed scan
that replaces each non-overlapping occurrence of the placeholder, left to
right.  The fuel starts at the length of the scanned list, which is always
enough since every step consumes at least one character. -/
def substDateFuel (date : String) : Nat → List Char → List Char
  | _, [] => []
  | 0, l => l
  | fuel + 1, c :: rest =>
    if leadsWith "{date}".data (c :: rest) then
      date.data ++ substDateFuel date fuel (List.drop 5 rest)
    else
      c :: substDateFuel date fuel rest

/-- Python's `pattern.replace("\x7bdate\x7d", date)` as used by
`RunnerService._get_output_path`. -/
def substDate (pattern date : String) : String :=
  ⟨substDateFuel date pattern.data.length pattern.data⟩

/-- SHA-256 of a file's content (`adapters/filesystem.py::compute_file_hash`),
modelled as an injective, never-empty digest of the content string. -/
def compute_file_hash (content : String) : String :=
  "sha256:" ++ content

/-- First-match lookup in an association list (dict read). -/
def lookupA {α : Type} : List (String × α) → String → Option α
  | [], _ => none
  | (k, v) :: rest, key => if k = key then some v else lookupA rest key

/-- Insert into an association list; the new binding shadows any older one
(dict write / file overwrite). -/
def insertA {α : Type} (l : List (String × α)) (k : String) (v : α) :
    List (String × α) :=
  (k, v) :: l

/-- Boolean membership via decidable equality (Python's `x in l`). -/
def memB {α : Type} [DecidableEq α] (x : α) : List α → Bool
  | [] => false
  | y :: rest => if y = x then true else memB x rest

/-- The rate-limit signatures from
`GeminiCLIAdapter._is_rate_limit_error`, already lower-case. -/
def rateLimitIndicators : List String :=
  ["429", "rate limit", "quota exceeded", "too many requests",
   "resource exhausted", "requests per minute"]

/-- `GeminiCLIAdapter._is_rate_limit_error`: empty text is falsy, otherwise a
case-insensitive substring test against each indicator. -/
def is_rate_limit_error (error_output : String) : Bool :=
  if error_output = "" then false
  else rateLimitIndicators.any (fun ind => strContains (toLowerStr error_output) ind)

/-- Outcome of one `wait_if_needed` call on the rate limiter, as seen by the
adapter: a token was granted, the 120 s acquire timed out (which
`wait_if_needed` converts to a `RateLimitError`), or the daily cap was
exceeded (`acquire` raised `RateLimitError` carrying the given text). -/
inductive LimiterOutcome where
  | granted
  | timedOut
  | dailyExceeded (msg : String)
deriving DecidableEq

/-- Outcome of one `subprocess.run` invocation of the external tool:
the process completed with an exit code, stdout and stderr, or it hit the
unit's timeout (`subprocess.TimeoutExpired`). -/
inductive AttemptOutcome where
  | completed (returncode : Int) (stdoutText : String) (stderrText : String)
  | subprocessTimeout
deriving DecidableEq

/-- Result of `GeminiCLIAdapter.execute_prompt`: the success tuple (exit
code, output text, retries used) or the `GeminiCLIError` message.  In the
source a success return always carries exit code 0. -/
inductive ExecResult where
  | ok (exit_code : Int) (output : String) (retries : Nat)
  | toolError (msg : String)
deriving DecidableEq

/-- Observable trace of one `execute_prompt` call: its result, how many
subprocess invocations ran, how many rate-limiter waits happened, the backoff
sleep durations in order, and the successive contents written to the output
file (stdout is written after every completed invocation, even failing
ones). -/
structure ExecTrace where
  result : ExecResult
  invocations : Nat
  limiterWaits : Nat
  sleeps : List Nat
  fileWrites : List String
deriving DecidableEq

/-- Python's `str(last_error)` where `last_error` may still be `None`. -/
def lastErrText : Option String → String
  | none => "None"
  | some s => s

/-- The `GeminiCLIError` message raised after retry exhaustion.  The source
wraps the prompt id in single quotes; the quotes are elided here. -/
def exhaustedMessage (policy : PromptPolicy) (lastError : Option String) : String :=
  "Failed to execute prompt " ++ policy.prompt_id ++ " after " ++
    toString (policy.max_retries + 1) ++ " attempts. Last error: " ++
    lastErrText lastError

/-- The retry loop of `GeminiCLIAdapter.execute_prompt`, indexed by the
number of loop iterations still to run (`remaining`), the current attempt
number and the `last_error` accumulator.  Faithful points of note:
  * a `RateLimitError` from `wait_if_needed` (daily cap or acquire timeout)
    is re-raised as `GeminiCLIError` inside the `try` body, so it is caught
    by the generic `except Exception` clause of the same loop: the loop
    *continues* with a standard backoff instead of aborting;
  * a failed completed invocation is classified for rate-limit signatures on
    the text returned by `_invoke_gemini_cli` (stderr if non-empty, else
    "Exit code N") and sleeps the longer schedule when classified;
  * stdout is written to the output file after every completed invocation;
  * a success return reports `retries = attempt`. -/
def executePromptAux (policy : PromptPolicy) (enableRL : Bool)
    (limiter : Nat → LimiterOutcome) (invoke : Nat → AttemptOutcome) :
    Nat → Nat → Option String → ExecTrace
  | 0, _, lastError =>
    { result := .toolError (exhaustedMessage policy lastError),
      invocations := 0, limiterWaits := 0, sleeps := [], fileWrites := [] }
  | remaining + 1, attempt, _lastError =>
    match (if enableRL then
            match limiter attempt with
            | .granted => none
            | .dailyExceeded m => some ("Rate limit exceeded: " ++ m)
            | .timedOut => some ("Rate limit exceeded: Could not acquire rate limit token within 120.0s timeout")
           else none : Option String) with
    | some msg =>
      let rest := executePromptAux policy enableRL limiter invoke remaining
        (attempt + 1) (some msg)
      { result := rest.result,
        invocations := rest.invocations,
        limiterWaits := rest.limiterWaits + 1,
        sleeps := (if attempt < policy.max_retries
                   then [min (2 ^ attempt) 60] else []) ++ rest.sleeps,
        fileWrites := rest.fileWrites }
    | none =>
      match invoke attempt with
      | .completed rc outText errText =>
        if rc = 0 then
          { result := .ok 0 outText attempt,
            invocations := 1,
            limiterWaits := if enableRL then 1 else 0,
            sleeps := [], fileWrites := [outText] }
        else
          let outputVal := if errText ≠ "" then errText
                           else "Exit code " ++ toString rc
          let isRL := is_rate_limit_error outputVal
          let newErr := "Gemini CLI exited with code " ++ toString rc ++ ": " ++
            takeStr outputVal 500
          let rest := executePromptAux policy enableRL limiter invoke remaining
            (attempt + 1) (some newErr)
          { result := rest.result,
            invocations := rest.invocations + 1,
            limiterWaits := rest.limiterWaits + (if enableRL then 1 else 0),
            sleeps := (if attempt < policy.max_retries then
                        [if isRL then min (30 * 2 ^ attempt) 120
                         else min (2 ^ attempt) 60]
                       else []) ++ rest.sleeps,
            fileWrites := outText :: rest.fileWrites }
      | .subprocessTimeout =>
        let newErr := "Timeout after " ++ toString policy.timeout_sec ++ "s"
        let rest := executePromptAux policy enableRL limiter invoke remaining
          (attempt + 1) (some newErr)
        { result := rest.result,
          invocations := rest.invocations + 1,
          limiterWaits := rest.limiterWaits + (if enableRL then 1 else 0),
          sleeps := (if attempt < policy.max_retries
                     then [min (2 ^ attempt) 60] else []) ++ rest.sleeps,
          fileWrites := rest.fileWrites }

/-- `GeminiCLIAdapter.execute_prompt`: dry runs return a sentinel success
before any rate-limiter wait or subprocess call; otherwise the retry loop
runs for attempts `0 .. max_retries`. -/
def execute_prompt (policy : PromptPolicy) (enableRL : Bool)
    (limiter : Nat → LimiterOutcome) (invoke : Nat → AttemptOutcome)
    (dry_run : Bool) : ExecTrace :=
  if dry_run then
    { result := .ok 0 "[DRY RUN] Would execute Gemini CLI" 0,
      invocations := 0, limiterWaits := 0, sleeps := [], fileWrites := [] }
  else
    executePromptAux policy enableRL limiter invoke (policy.max_retries + 1) 0 none

/-- `pathlib.PurePath.parent` on the slash-joined path strings the runner
produces: everything before the last `/`, or `.` when the path has no
separator. -/
def parentOf (path : String) : String :=
  if path.data.contains '/' then
    ⟨((path.data.reverse.dropWhile (fun c => c ≠ '/')).drop 1).reverse⟩
  else "."

/-- `pathlib.PurePath.stem`: the final path component without its last
extension.  The suffix is stripped only when the last dot of the name is
neither its first nor its last character, exactly as pathlib computes it. -/
def stemOf (path : String) : String :=
  let name := (path.data.reverse.takeWhile (fun c => c ≠ '/')).reverse
  let pre := ((name.reverse.dropWhile (fun c => c ≠ '.')).drop 1).reverse
  let ext := (name.reverse.takeWhile (fun c => c ≠ '.')).reverse
  if name.contains '.' ∧ pre ≠ [] ∧ ext ≠ [] then ⟨pre⟩ else ⟨name⟩

/-- The completion-marker sidecar path
`output_path.parent / ".nh_status_{output_path.stem}.json"`
(manifest.py:140 and manifest.py:153).  It depends only on the output's
directory and stem, so outputs differing only in extension collide. -/
def marker_path (output_path : String) : String :=
  parentOf output_path ++ "/.nh_status_" ++ stemOf output_path ++ ".json"

/-- Filesystem state threaded through the runner: file contents keyed by
output path, and completion-marker sidecars keyed by their `marker_path`. -/
structure FSState where
  files : List (String × String)
  markers : List (String × CompletionMarker)
deriving DecidableEq

/-- `ManifestService.read_completion_marker`: read the sidecar derived from
the output path (missing sidecar means no marker). -/
def read_completion_marker (st : FSState) (output_path : String) :
    Option CompletionMarker :=
  lookupA st.markers (marker_path output_path)

/-- `ManifestService.is_completed`: forced reruns short-circuit to false;
otherwise the marker (read through the sidecar convention) must exist, the
output file must exist, the marker's exit code must be 0 and, when the
marker stores a (truthy, i.e. non-empty) hash, the live file's hash must
match it.  The source's try/except around hashing cannot fire in the model
because hashing is total here. -/
def is_completed (st : FSState) (output_path : String) (force : Bool)
    (forced_prompts : List String) (forced_waves : List WaveType)
    (prompt_policy : Option PromptPolicy) : Bool :=
  if force then false
  else if (match prompt_policy with
           | some p => memB p.prompt_id forced_prompts || memB p.wave forced_waves
           | none => false) then false
  else
    match read_completion_marker st output_path with
    | none => false
    | some marker =>
      match lookupA st.files output_path with
      | none => false
      | some content =>
        if marker.exit_code ≠ 0 then false
        else
          match marker.sha256 with
          | some h =>
            if h ≠ "" then (if compute_file_hash content ≠ h then false else true)
            else true
          | none => true

/-- `ManifestService.write_completion_marker`: recompute the live output hash
if the file exists (best effort; hashing is total in the model) and store the
marker at the sidecar path beside the output. -/
def write_completion_marker (st : FSState) (output_path : String)
    (prompt_id : String) (exit_code : Int) (retries : Nat)
    (error_message : Option String) : FSState :=
  let sha : Option String := (lookupA st.files output_path).map compute_file_hash
  { st with
    markers := insertA st.markers (marker_path output_path)
      { prompt_id := prompt_id, exit_code := exit_code, retries := retries,
        sha256 := sha, error_message := error_message } }

/-- The per-wave dependency list computed inside
`ManifestService.build_dependency_graph` for one prompt: aggregators depend
on every search-wave output for the date, tagger and render on the dated
daily report, export on the report plus the dated tag file, publish on the
dated export file, search on nothing. -/
def depListFor (repo_root : String) (prompts : List PromptPolicy)
    (date : String) (p : PromptPolicy) : List String :=
  match p.wave with
  | .aggregator =>
    (prompts.filter (fun q => decide (q.wave = WaveType.search))).map
      (fun sp => repo_root ++ "/data/outputs/daily/" ++ date ++ "/" ++ sp.expected_outputs)
  | .tagger => [repo_root ++ "/data/reports/daily_report_" ++ date ++ ".md"]
  | .render => [repo_root ++ "/data/reports/daily_report_" ++ date ++ ".md"]
  | .exportW => [repo_root ++ "/data/reports/daily_report_" ++ date ++ ".md",
                 repo_root ++ "/data/publishing/tags_" ++ date ++ ".json"]
  | .publish => [repo_root ++ "/data/publishing/" ++ date ++ ".json"]
  | .search => []

/-- `ManifestService.build_dependency_graph`: a dict built by assigning
`deps[p.prompt_id]` for every prompt in order, so a later prompt with the
same id shadows an earlier one. -/
def build_dependency_graph (repo_root : String) (prompts : List PromptPolicy)
    (date : String) : List (String × List String) :=
  prompts.foldl
    (fun acc p => insertA acc p.prompt_id (depListFor repo_root prompts date p)) []

/-- `RunnerService._get_output_path`: search outputs live under the dated
daily directory with the pattern used verbatim; aggregator, tagger, render
and export substitute the date placeholder inside their fixed directories;
every other wave (publish) falls back to `data/outputs` with the pattern
used verbatim. -/
def get_output_path (repo_root : String) (prompt : PromptPolicy)
    (date : String) : String :=
  match prompt.wave with
  | .search => repo_root ++ "/data/outputs/daily/" ++ date ++ "/" ++ prompt.expected_outputs
  | .aggregator => repo_root ++ "/data/reports/" ++ substDate prompt.expected_outputs date
  | .tagger => repo_root ++ "/data/publishing/" ++ substDate prompt.expected_outputs date
  | .render => repo_root ++ "/dashboards/" ++ substDate prompt.expected_outputs date
  | .exportW => repo_root ++ "/data/publishing/" ++ substDate prompt.expected_outputs date
  | .publish => repo_root ++ "/data/outputs/" ++ prompt.expected_outputs

/-- Worker-pool sizes per concurrency class (`RunnerService.pool_sizes`). -/
def pool_sizes : ConcurrencyClass → Nat
  | .sequential => 1
  | .low => 2
  | .medium => 4
  | .high => 8

/-- `RunnerService._get_max_workers`: one sequential unit serializes the
wave; otherwise the minimum pool size among the wave's units governs (1 for
an empty list). -/
def get_max_workers (prompts : List PromptPolicy) : Nat :=
  if prompts.any (fun p => decide (p.concurrency_class = ConcurrencyClass.sequential))
  then 1
  else
    match (prompts.map (fun p => pool_sizes p.concurrency_class)).min? with
    | some m => m
    | none => 1

/-- How one unit behaves when dispatched: either the adapter runs with the
given rate-limiter and subprocess oracles, or the dispatch raises an
unexpected exception (anything other than the adapter's own
`GeminiCLIError`) before producing side effects. -/
inductive UnitBehavior where
  | adapter (limiter : Nat → LimiterOutcome) (invoke : Nat → AttemptOutcome)
  | raises (msg : String)

/-- The per-invocation parameters of `RunnerService.execute_wave`, plus the
behavior oracle for each unit (keyed by prompt id). -/
structure RunnerEnv where
  repo_root : String
  date : String
  run_id : String
  registry_hash : String
  config_fingerprint : String
  forced_prompts : List String
  forced_waves : List WaveType
  dry_run : Bool
  enableRL : Bool
  behavior : String → UnitBehavior

/-- What `_execute_single_prompt` hands back to the dispatch boundary: its
boolean return value, or the unexpected exception that escaped it
(`GeminiCLIError` never escapes: it is caught inside). -/
inductive SingleOutcome where
  | ok (success : Bool)
  | exn (msg : String)
deriving DecidableEq

/-- Result of dispatching one unit: outcome, updated filesystem state, the
ledger entries appended (in order) and the number of subprocess
invocations. -/
structure SingleResult where
  outcome : SingleOutcome
  state : FSState
  ledger : List LedgerEntry
  invocations : Nat
deriving DecidableEq

/-- Replay the adapter's output-file writes against the state (each
completed invocation overwrites the output path with its stdout). -/
def applyWrites (st : FSState) (path : String) (writes : List String) : FSState :=
  writes.foldl (fun s w => { s with files := insertA s.files path w }) st

/-- `RunnerService._execute_single_prompt`:
  * resolve the output path, compute the per-unit force flag from the
    forced-unit and forced-wave sets, and ask `is_completed`; skip (counted
    as completed) without any tool invocation when it answers true;
  * otherwise run the adapter; on a success return, write a completion
    marker with the returned exit code and retries, then a ledger entry
    whose declared inputs come from `build_dependency_graph`;
  * on `GeminiCLIError`, write a failure marker (exit code 1, default
    retries 0) and a ledger entry with default (empty) inputs and outputs;
  * an unexpected exception escapes with no state change. -/
def execute_single_prompt (env : RunnerEnv) (all_prompts : List PromptPolicy)
    (p : PromptPolicy) (st : FSState) : SingleResult :=
  let output_path := get_output_path env.repo_root p env.date
  let force := memB p.prompt_id env.forced_prompts || memB p.wave env.forced_waves
  if is_completed st output_path force env.forced_prompts env.forced_waves (some p) then
    { outcome := .ok true, state := st, ledger := [], invocations := 0 }
  else
    match env.behavior p.prompt_id with
    | .raises m => { outcome := .exn m, state := st, ledger := [], invocations := 0 }
    | .adapter limiter invoke =>
      let tr := execute_prompt p env.enableRL limiter invoke env.dry_run
      let st1 := applyWrites st output_path tr.fileWrites
      match tr.result with
      | .ok exit_code _out retries =>
        let st2 := write_completion_marker st1 output_path p.prompt_id exit_code retries none
        let output_sha := (lookupA st2.files output_path).map compute_file_hash
        let deps := (lookupA (build_dependency_graph env.repo_root all_prompts env.date)
          p.prompt_id).getD []
        { outcome := .ok (decide (exit_code = 0)),
          state := st2,
          ledger := [{ run_id := env.run_id, prompt_id := p.prompt_id,
                       registry_hash := env.registry_hash,
                       config_fingerprint := env.config_fingerprint,
                       success := decide (exit_code = 0), retries := retries,
                       output_sha256 := output_sha, dependent_inputs := deps,
                       output_paths := [output_path], error_message := none }],
          invocations := tr.invocations }
      | .toolError msg =>
        let st2 := write_completion_marker st1 output_path p.prompt_id 1 0 (some msg)
        { outcome := .ok false,
          state := st2,
          ledger := [{ run_id := env.run_id, prompt_id := p.prompt_id,
                       registry_hash := env.registry_hash,
                       config_fingerprint := env.config_fingerprint,
                       success := false, retries := 0,
                       output_sha256 := none, dependent_inputs := [],
                       output_paths := [], error_message := some msg }],
          invocations := tr.invocations }

/-- Aggregated outcome of one wave: the completed and failed id lists, the
final filesystem state, the ledger entries appended and the total number of
subprocess invocations. -/
structure WaveResult where
  completed : List String
  failed : List String
  state : FSState
  ledger : List LedgerEntry
  invocations : Nat
deriving DecidableEq

/-- Dispatch the wave's units one at a time (the bounded thread pool gives
no intra-wave ordering guarantee, so the model fixes list order).  The
`future.result()` boundary of `execute_wave` converts an unexpected
exception into a failed-unit outcome and never re-raises it. -/
def run_wave_units (env : RunnerEnv) (all_prompts : List PromptPolicy) :
    List PromptPolicy → FSState → WaveResult
  | [], st => { completed := [], failed := [], state := st, ledger := [], invocations := 0 }
  | p :: rest, st =>
    let r := execute_single_prompt env all_prompts p st
    let w := run_wave_units env all_prompts rest r.state
    match r.outcome with
    | .ok true =>
      { completed := p.prompt_id :: w.completed, failed := w.failed,
        state := w.state, ledger := r.ledger ++ w.ledger,
        invocations := r.invocations + w.invocations }
    | .ok false =>
      { completed := w.completed, failed := p.prompt_id :: w.failed,
        state := w.state, ledger := r.ledger ++ w.ledger,
        invocations := r.invocations + w.invocations }
    | .exn _ =>
      { completed := w.completed, failed := p.prompt_id :: w.failed,
        state := w.state, ledger := r.ledger ++ w.ledger,
        invocations := r.invocations + w.invocations }

/-- `RunnerService.execute_wave`: filter the registry to this wave and
dispatch every filtered unit (an empty wave is a no-op; the pool size from
`get_max_workers` bounds concurrency, which the sequential model absorbs). -/
def execute_wave (env : RunnerEnv) (wave : WaveType)
    (prompts : List PromptPolicy) (st : FSState) : WaveResult :=
  run_wave_units env prompts (prompts.filter (fun p => decide (p.wave = wave))) st

/-! ### Generic helper lemmas -/

theorem lookupA_insert_self {α : Type} (l : List (String × α)) (k : String) (v : α) :
    lookupA (insertA l k v) k = some v := by
  simp [insertA, lookupA]

theorem lookupA_insert_other {α : Type} (l : List (String × α)) (k : String) (v : α)
    (q : String) (h : k ≠ q) : lookupA (insertA l k v) q = lookupA l q := by
  simp [insertA, lookupA, h]

theorem leadsWith_append (n t : List Char) : leadsWith n (n ++ t) = true := by
  induction n with
  | nil => rfl
  | cons a n ih => simp [leadsWith, ih]

theorem leadsWith_refl (n : List Char) : leadsWith n n = true := by
  have h := leadsWith_append n []
  simpa using h

theorem leadsWith_append_left (x y z : List Char) :
    leadsWith (x ++ y) (x ++ z) = leadsWith y z := by
  induction x with
  | nil => rfl
  | cons a x ih => simp [leadsWith, ih]

theorem containsSub_of_leadsWith {hay need : List Char}
    (h : leadsWith need hay = true) : containsSub hay need = true := by
  cases hay with
  | nil =>
    cases need with
    | nil => rfl
    | cons c t => simp [leadsWith] at h
  | cons c t => simp [containsSub, h]

theorem containsSub_append_left (a : List Char) {t need : List Char}
    (h : containsSub t need = true) : containsSub (a ++ t) need = true := by
  induction a with
  | nil => simpa using h
  | cons c a ih => simp [containsSub, ih]

theorem strContains_factor (x y z : String) : strContains (x ++ y ++ z) y = true := by
  show containsSub (x ++ y ++ z).data y.data = true
  rw [String.data_append, String.data_append, List.append_assoc]
  exact containsSub_append_left x.data
    (containsSub_of_leadsWith (leadsWith_append y.data z.data))

theorem strContains_tail (x y : String) : strContains (x ++ y) y = true := by
  show containsSub (x ++ y).data y.data = true
  rw [String.data_append]
  exact containsSub_append_left x.data (containsSub_of_leadsWith (leadsWith_refl y.data))

theorem compute_file_hash_ne_empty (c : String) : compute_file_hash c ≠ "" := by
  intro h
  have h2 : ("sha256:" ++ c).length = ("" : String).length := congrArg String.length h
  rw [String.length_append] at h2
  have h7 : ("sha256:" : String).length = 7 := rfl
  have h0 : ("" : String).length = 0 := rfl
  rw [h7, h0] at h2
  omega

theorem compute_file_hash_inj {a b : String}
    (h : compute_file_hash a = compute_file_hash b) : a = b := by
  have hd : ("sha256:" ++ a).data = ("sha256:" ++ b).data := congrArg String.data h
  rw [String.data_append, String.data_append] at hd
  exact String.ext (List.append_cancel_left hd)

/-! ### Test fixtures -/

/-- Fixture builder for concrete unit policies used by witnesses and
counterexamples. -/
def mkPolicy (id : String) (w : WaveType) (cc : ConcurrencyClass)
    (mr : Nat) (outs : String) : PromptPolicy :=
  { prompt_id := id, title := "T", wave := w, category := "C",
    model := "gemini-2.5-pro", tools := none, temperature := 1,
    token_budget := 32000, timeout_sec := 120, max_retries := mr,
    concurrency_class := cc, expected_outputs := outs, prompt := "p",
    notes := none }

/-! ### C3: output path resolution -/

/-- The output-path convention, written from the spec's words as amended:
each wave has one fixed destination directory; the date placeholder is
substituted inside the pattern for the aggregator, tagger, render and
export waves; the search wave keeps the pattern verbatim under the dated
daily directory; the publish wave falls back to `data/outputs` with the
pattern verbatim. -/
def outputPathSpec (repo_root : String) (wave : WaveType) (pattern : String)
    (date : String) : String :=
  match wave with
  | .search => repo_root ++ "/data/outputs/daily/" ++ date ++ "/" ++ pattern
  | .aggregator => repo_root ++ "/data/reports/" ++ substDate pattern date
  | .tagger => repo_root ++ "/data/publishing/" ++ substDate pattern date
  | .render => repo_root ++ "/dashboards/" ++ substDate pattern date
  | .exportW => repo_root ++ "/data/publishing/" ++ substDate pattern date
  | .publish => repo_root ++ "/data/outputs/" ++ pattern

theorem get_output_path_eq_spec (repo_root : String) (p : PromptPolicy)
    (date : String) :
    get_output_path repo_root p date =
      outputPathSpec repo_root p.wave p.expected_outputs date := by
  rcases p with ⟨_, _, w, _, _, _, _, _, _, _, _, _, _, _⟩
  cases w <;> rfl

/-- Search-wave unit whose expected-output pattern carries the date
placeholder. -/
def pC3 : PromptPolicy := mkPolicy "s1" .search .medium 3 "out_{date}.md"

/-- A second policy sharing `pC3`'s wave and pattern but nothing else. -/
def pC3b : PromptPolicy := mkPolicy "s2" .search .high 1 "out_{date}.md"

/-- C3 (counterexample): for a search-wave unit the date placeholder in the
expected-output pattern is NOT substituted — the resolved path still
contains the literal placeholder even though the date string itself does
not, refuting the claim that substitution happens for every wave. -/
theorem C3_counterexample :
    strContains pC3.expected_outputs "{date}" = true ∧
    strContains "2025-11-14" "{date}" = false ∧
    strContains (get_output_path "/repo" pC3 "2025-11-14") "{date}" = true := by
  decide

/-- C3 (amended): output path resolution is a pure function of the wave, the
expected-output pattern and the date — each wave maps to one fixed
destination directory, with the date placeholder substituted for the
aggregator, tagger, render and export waves, while search (inside the dated
daily directory) and publish use the pattern verbatim. -/
theorem C3_output_path_resolution :
    (∀ (repo_root : String) (p : PromptPolicy) (date : String),
      get_output_path repo_root p date =
        outputPathSpec repo_root p.wave p.expected_outputs date) ∧
    (∀ (repo_root date : String) (p q : PromptPolicy), p.wave = q.wave →
      p.expected_outputs = q.expected_outputs →
      get_output_path repo_root p date = get_output_path repo_root q date) := by
  refine ⟨get_output_path_eq_spec, ?_⟩
  intro repo date p q hw he
  rw [get_output_path_eq_spec, get_output_path_eq_spec, hw, he]

/-- Witness for C3: the characterization applied at a concrete search-wave
unit, and purity applied to two policies that differ in everything but wave
and pattern. -/
theorem C3_output_path_resolution_witness :
    get_output_path "/r" pC3 "2025-11-14" =
      outputPathSpec "/r" pC3.wave pC3.expected_outputs "2025-11-14" ∧
    get_output_path "/r" pC3 "2025-11-14" = get_output_path "/r" pC3b "2025-11-14" :=
  ⟨C3_output_path_resolution.1 "/r" pC3 "2025-11-14",
   C3_output_path_resolution.2 "/r" "2025-11-14" pC3 pC3b (by decide) (by decide)⟩

/-! ### C8: worker pool sizing -/

/-- C8: for a non-empty wave, one sequential unit forces pool size 1;
otherwise the pool size is the minimum of the units' class pool sizes
(it is attained by some unit and is a lower bound for all). -/
theorem C8_pool_size (prompts : List PromptPolicy) (hne : prompts ≠ []) :
    ((∃ p ∈ prompts, p.concurrency_class = ConcurrencyClass.sequential) →
      get_max_workers prompts = 1) ∧
    ((∀ p ∈ prompts, p.concurrency_class ≠ ConcurrencyClass.sequential) →
      (∃ p ∈ prompts, get_max_workers prompts = pool_sizes p.concurrency_class) ∧
      ∀ p ∈ prompts, get_max_workers prompts ≤ pool_sizes p.concurrency_class) := by
  constructor
  · intro ⟨p, hp, hseq⟩
    have hany : prompts.any
        (fun p => decide (p.concurrency_class = ConcurrencyClass.sequential)) = true := by
      rw [List.any_eq_true]
      exact ⟨p, hp, by simp [hseq]⟩
    simp [get_max_workers, hany]
  · intro hall
    have hany : prompts.any
        (fun p => decide (p.concurrency_class = ConcurrencyClass.sequential)) = false := by
      rw [List.any_eq_false]
      intro p hp
      simp [hall p hp]
    have hsne : prompts.map (fun p => pool_sizes p.concurrency_class) ≠ [] := by
      simpa using hne
    rcases hm : (prompts.map (fun p => pool_sizes p.concurrency_class)).min? with _ | m
    · rw [List.min?_eq_none_iff] at hm
      exact absurd hm hsne
    · have hmem : m ∈ prompts.map (fun p => pool_sizes p.concurrency_class) :=
        List.min?_mem (fun a b => min_choice a b) hm
      have hlb : ∀ b ∈ prompts.map (fun p => pool_sizes p.concurrency_class), m ≤ b := by
        intro b hb
        exact (List.le_min?_iff (fun a b c => le_min_iff) hm).mp le_rfl b hb
      have hval : get_max_workers prompts = m := by
        simp [get_max_workers, hany, hm]
      constructor
      · rcases List.mem_map.mp hmem with ⟨p, hp, hpm⟩
        exact ⟨p, hp, by rw [hval, hpm]⟩
      · intro p hp
        rw [hval]
        exact hlb _ (List.mem_map.mpr ⟨p, hp, rfl⟩)

/-- A sequential aggregator unit. -/
def pSeq : PromptPolicy := mkPolicy "seq1" .aggregator .sequential 3 "report_{date}.md"

/-- A high-concurrency search unit. -/
def pHigh : PromptPolicy := mkPolicy "h1" .search .high 3 "h1.md"

/-- A low-concurrency search unit. -/
def pLow : PromptPolicy := mkPolicy "l1" .search .low 3 "l1.md"

/-- A medium-concurrency search unit. -/
def pMed : PromptPolicy := mkPolicy "m1" .search .medium 3 "m1.md"

/-- Witness for C8: a sequential plus a high unit give pool size 1; a low
plus a medium unit give pool size 2 (the minimum, not the maximum). -/
theorem C8_pool_size_witness :
    get_max_workers [pSeq, pHigh] = 1 ∧ get_max_workers [pLow, pMed] = 2 := by
  refine ⟨(C8_pool_size [pSeq, pHigh] (by decide)).1 ⟨pSeq, by decide, by decide⟩, ?_⟩
  decide

/-! ### C7: the completion check -/

/-- The completion decision table written from the spec's words: forced
reruns answer false; otherwise a marker must exist, the output file must
exist, the marker's exit code must be 0, and a stored content hash must
match the live file's hash. -/
def isCompletedSpec (st : FSState) (output_path : String) (force : Bool)
    (forced_prompts : List String) (forced_waves : List WaveType)
    (p : PromptPolicy) : Bool :=
  if force || memB p.prompt_id forced_prompts || memB p.wave forced_waves then false
  else
    match read_completion_marker st output_path, lookupA st.files output_path with
    | none, _ => false
    | some _, none => false
    | some marker, some content =>
      if marker.exit_code ≠ 0 then false
      else
        match marker.sha256 with
        | some h => decide (compute_file_hash content = h)
        | none => true

/-- C7: `is_completed` realizes the spec's decision table (for markers whose
stored hash, when present, is non-empty — every digest the system stores
is), and externally replacing the output file's content after a successful
marker was written over it makes the next check answer false. -/
theorem C7_is_completed_contract :
    (∀ (st : FSState) (path : String) (force : Bool) (fp : List String)
       (fw : List WaveType) (p : PromptPolicy),
      (∀ m h, read_completion_marker st path = some m → m.sha256 = some h → h ≠ "") →
      is_completed st path force fp fw (some p) = isCompletedSpec st path force fp fw p) ∧
    (∀ (st : FSState) (path pid : String) (retries : Nat)
       (content newContent : String) (p : PromptPolicy),
      lookupA st.files path = some content →
      newContent ≠ content →
      is_completed
        { files := insertA (write_completion_marker st path pid 0 retries none).files
            path newContent,
          markers := (write_completion_marker st path pid 0 retries none).markers }
        path false [] [] (some p) = false) := by
  constructor
  · intro st path force fp fw p hsha
    cases hf : force
    · cases hmem : (memB p.prompt_id fp || memB p.wave fw)
      · cases hmk : read_completion_marker st path with
        | none => simp [is_completed, isCompletedSpec, hf, hmem, hmk]
        | some m =>
          cases hfc : lookupA st.files path with
          | none => simp [is_completed, isCompletedSpec, hf, hmem, hmk, hfc]
          | some content =>
            by_cases hec : m.exit_code = 0
            · cases hs : m.sha256 with
              | none => simp [is_completed, isCompletedSpec, hf, hmem, hmk, hfc, hec, hs]
              | some h =>
                have hne : h ≠ "" := hsha m h hmk hs
                by_cases hh : compute_file_hash content = h
                · simp [is_completed, isCompletedSpec, hf, hmem, hmk, hfc, hec, hs, hne, hh]
                · simp [is_completed, isCompletedSpec, hf, hmem, hmk, hfc, hec, hs, hne, hh]
            · simp [is_completed, isCompletedSpec, hf, hmem, hmk, hfc, hec]
      · simp [is_completed, isCompletedSpec, hf, hmem]
    · simp [is_completed, isCompletedSpec, hf]
  · intro st path pid retries content newContent p hfile hne
    have hmk : lookupA
        (insertA (write_completion_marker st path pid 0 retries none).files path
          newContent) path = some newContent := lookupA_insert_self _ _ _
    have hhash : compute_file_hash newContent ≠ compute_file_hash content := by
      intro h
      exact hne (compute_file_hash_inj h)
    simp [is_completed, read_completion_marker, write_completion_marker, hfile, memB,
      lookupA_insert_self, hmk, compute_file_hash_ne_empty, hhash]

/-- The hash-free marker stored in `stC7`. -/
def mC7 : CompletionMarker :=
  { prompt_id := "u1", exit_code := 0, retries := 0, sha256 := none,
    error_message := none }

/-- A filesystem with one completed artifact (at `data/out.md`) whose
sidecar marker stores no hash. -/
def stC7 : FSState :=
  { files := [("data/out.md", "hello")],
    markers := [("data/.nh_status_out.json", mC7)] }

/-- Witness for C7: the decision-table equivalence at a concrete state, and
tamper detection after overwriting a hashed output with different bytes. -/
theorem C7_is_completed_contract_witness :
    is_completed stC7 "data/out.md" false [] [] (some pHigh) =
      isCompletedSpec stC7 "data/out.md" false [] [] pHigh ∧
    is_completed
      { files := insertA (write_completion_marker stC7 "data/out.md" "u1" 0 0 none).files
          "data/out.md" "tampered",
        markers := (write_completion_marker stC7 "data/out.md" "u1" 0 0 none).markers }
      "data/out.md" false [] [] (some pHigh) = false := by
  constructor
  · refine C7_is_completed_contract.1 stC7 "data/out.md" false [] [] pHigh ?_
    intro m h hm hs
    have hm' : some mC7 = some m := by
      rw [← hm]
      decide
    rw [Option.some.injEq] at hm'
    rw [← hm'] at hs
    simp [mC7] at hs
  · exact C7_is_completed_contract.2 stC7 "data/out.md" "u1" 0 "hello" "tampered" pHigh
      (by decide) (by decide)

/-! ### C2: the daily-cap path of the adapter -/

/-- A unit with the default retry budget, used to drive the daily-cap path. -/
def pC2 : PromptPolicy := mkPolicy "daily_prompt" .search .medium 3 "daily_prompt.md"

/-- C2 (divergence witness): when the rate limiter reports the daily cap
exceeded on every attempt, `execute_prompt` does NOT abort immediately — the
`GeminiCLIError` raised at the daily-limit check is swallowed by the
adapter's own generic exception handler, so the limiter is consulted on all
four attempts and three standard backoff sleeps (1 s, 2 s, 4 s) run before
the final `GeminiCLIError`; no subprocess is ever invoked. -/
theorem C2_daily_cap_is_retried :
    (execute_prompt pC2 true
      (fun _ => .dailyExceeded "Daily limit of 1000 requests exceeded")
      (fun _ => .completed 0 "ok" "") false).limiterWaits = 4 ∧
    (execute_prompt pC2 true
      (fun _ => .dailyExceeded "Daily limit of 1000 requests exceeded")
      (fun _ => .completed 0 "ok" "") false).sleeps = [1, 2, 4] ∧
    (execute_prompt pC2 true
      (fun _ => .dailyExceeded "Daily limit of 1000 requests exceeded")
      (fun _ => .completed 0 "ok" "") false).invocations = 0 ∧
    (execute_prompt pC2 true
      (fun _ => .dailyExceeded "Daily limit of 1000 requests exceeded")
      (fun _ => .completed 0 "ok" "") false).result =
      .toolError "Failed to execute prompt daily_prompt after 4 attempts. Last error: Rate limit exceeded: Daily limit of 1000 requests exceeded" := by
  decide

/-! ### C5: retry exhaustion -/

/-- An invocation attempt that does not succeed: a completed subprocess with
a non-zero exit code, or a subprocess timeout. -/
def attemptFails : AttemptOutcome → Prop
  | .completed rc _ _ => rc ≠ 0
  | .subprocessTimeout => True

/-- The `last_error` text the retry loop records for a failed attempt. -/
def attemptErrText (policy : PromptPolicy) : AttemptOutcome → String
  | .completed rc _ err =>
    "Gemini CLI exited with code " ++ toString rc ++ ": " ++
      takeStr (if err ≠ "" then err else "Exit code " ++ toString rc) 500
  | .subprocessTimeout => "Timeout after " ++ toString policy.timeout_sec ++ "s"

theorem executePromptAux_exhaust (policy : PromptPolicy) (enableRL : Bool)
    (limiter : Nat → LimiterOutcome) (invoke : Nat → AttemptOutcome)
    (hlim : ∀ n, enableRL = true → limiter n = .granted)
    (hfail : ∀ n, attemptFails (invoke n)) :
    ∀ remaining attempt lastErr, 1 ≤ remaining →
      (executePromptAux policy enableRL limiter invoke remaining attempt
        lastErr).invocations = remaining ∧
      (executePromptAux policy enableRL limiter invoke remaining attempt
        lastErr).result =
        .toolError (exhaustedMessage policy
          (some (attemptErrText policy (invoke (attempt + remaining - 1))))) := by
  intro remaining
  induction remaining with
  | zero => intro attempt lastErr h; exact absurd h (by omega)
  | succ k ih =>
    intro attempt lastErr _
    have hgate : (if enableRL then
        match limiter attempt with
        | .granted => none
        | .dailyExceeded m => some ("Rate limit exceeded: " ++ m)
        | .timedOut => some ("Rate limit exceeded: Could not acquire rate limit token within 120.0s timeout")
       else none : Option String) = none := by
      cases hRL : enableRL
      · rfl
      · rw [hlim attempt hRL]
        rfl
    have hidx : attempt + 1 + k - 1 = attempt + (k + 1) - 1 := by omega
    cases hinv : invoke attempt with
    | completed rc outText errText =>
      have hrc : ¬ rc = 0 := by
        have hf := hfail attempt
        rw [hinv] at hf
        exact hf
      simp only [executePromptAux, hgate, hinv, if_neg hrc]
      cases k with
      | zero =>
        refine ⟨rfl, ?_⟩
        simp [executePromptAux, attemptErrText, hinv]
      | succ k' =>
        have hrec := ih (attempt + 1)
          (some ("Gemini CLI exited with code " ++ toString rc ++ ": " ++
            takeStr (if errText ≠ "" then errText
                     else "Exit code " ++ toString rc) 500)) (by omega)
        refine ⟨by rw [hrec.1], ?_⟩
        rw [hrec.2, hidx]
    | subprocessTimeout =>
      simp only [executePromptAux, hgate, hinv]
      cases k with
      | zero =>
        refine ⟨rfl, ?_⟩
        simp [executePromptAux, attemptErrText, hinv]
      | succ k' =>
        have hrec := ih (attempt + 1)
          (some ("Timeout after " ++ toString policy.timeout_sec ++ "s")) (by omega)
        refine ⟨by rw [hrec.1], ?_⟩
        rw [hrec.2, hidx]

theorem exhaustedMessage_contains_pid (policy : PromptPolicy) (lastErr : Option String) :
    strContains (exhaustedMessage policy lastErr) policy.prompt_id = true := by
  simp only [exhaustedMessage, strContains, String.data_append, List.append_assoc]
  exact containsSub_append_left _
    (containsSub_of_leadsWith (leadsWith_append _ _))

theorem exhaustedMessage_contains_count (policy : PromptPolicy) (lastErr : Option String) :
    strContains (exhaustedMessage policy lastErr)
      (toString (policy.max_retries + 1) ++ " attempts") = true := by
  have hC : (" attempts. Last error: " : String).data =
      (" attempts" : String).data ++ (". Last error: " : String).data := by decide
  simp only [exhaustedMessage, strContains, String.data_append, hC, List.append_assoc]
  refine containsSub_append_left _ (containsSub_append_left _
    (containsSub_append_left _ (containsSub_of_leadsWith ?_)))
  rw [leadsWith_append_left]
  exact leadsWith_append _ _

theorem exhaustedMessage_contains_lastErr (policy : PromptPolicy) (e : String) :
    strContains (exhaustedMessage policy (some e)) e = true := by
  simp only [exhaustedMessage, lastErrText, strContains, String.data_append,
    List.append_assoc]
  refine containsSub_append_left _ (containsSub_append_left _
    (containsSub_append_left _ (containsSub_append_left _
      (containsSub_append_left _ (containsSub_of_leadsWith (leadsWith_refl _))))))

/-- C5: with a failing invocation on every attempt (and an unobstructed rate
limiter), `execute_prompt` performs exactly `max_retries + 1` subprocess
invocations and raises a `GeminiCLIError` whose message carries the unit id,
the attempt count and the last observed error text. -/
theorem C5_retry_exhaustion (policy : PromptPolicy) (enableRL : Bool)
    (limiter : Nat → LimiterOutcome) (invoke : Nat → AttemptOutcome)
    (hlim : ∀ n, enableRL = true → limiter n = .granted)
    (hfail : ∀ n, attemptFails (invoke n)) :
    (execute_prompt policy enableRL limiter invoke false).invocations =
      policy.max_retries + 1 ∧
    (execute_prompt policy enableRL limiter invoke false).result =
      .toolError (exhaustedMessage policy
        (some (attemptErrText policy (invoke policy.max_retries)))) ∧
    strContains (exhaustedMessage policy
        (some (attemptErrText policy (invoke policy.max_retries))))
      policy.prompt_id = true ∧
    strContains (exhaustedMessage policy
        (some (attemptErrText policy (invoke policy.max_retries))))
      (toString (policy.max_retries + 1) ++ " attempts") = true ∧
    strContains (exhaustedMessage policy
        (some (attemptErrText policy (invoke policy.max_retries))))
      (attemptErrText policy (invoke policy.max_retries)) = true := by
  have h := executePromptAux_exhaust policy enableRL limiter invoke hlim hfail
    (policy.max_retries + 1) 0 none (by omega)
  have hidx : 0 + (policy.max_retries + 1) - 1 = policy.max_retries := by omega
  rw [hidx] at h
  refine ⟨?_, ?_, exhaustedMessage_contains_pid _ _,
    exhaustedMessage_contains_count _ _, exhaustedMessage_contains_lastErr _ _⟩
  · simpa [execute_prompt] using h.1
  · simpa [execute_prompt] using h.2

/-- The unit from the spec's retry-exhaustion scenario. -/
def pC5 : PromptPolicy := mkPolicy "test_prompt" .search .medium 3 "test_prompt.md"

/-- A subprocess that always exits 1 with "boom" on stderr. -/
def invC5 : Nat → AttemptOutcome := fun _ => .completed 1 "" "boom"

/-- Witness for C5: `max_retries = 3` yields exactly 4 invocation attempts
and the expected `GeminiCLIError` message. -/
theorem C5_retry_exhaustion_witness :
    (execute_prompt pC5 false (fun _ => .granted) invC5 false).invocations = 4 ∧
    (execute_prompt pC5 false (fun _ => .granted) invC5 false).result =
      .toolError "Failed to execute prompt test_prompt after 4 attempts. Last error: Gemini CLI exited with code 1: boom" := by
  have h := C5_retry_exhaustion pC5 false (fun _ => .granted) invC5
    (fun n hn => by exact absurd hn (by decide))
    (fun n => by simp [invC5, attemptFails])
  refine ⟨h.1, ?_⟩
  rw [h.2.1]
  decide

/-! ### C6: backoff differentiation -/

/-- The text the retry loop classifies for rate-limit signatures after a
failed completed invocation: stderr if non-empty, else "Exit code N". -/
def classInput : AttemptOutcome → String
  | .completed rc _ err => if err ≠ "" then err else "Exit code " ++ toString rc
  | .subprocessTimeout => ""

/-- The backoff slept after a failed (non-final) completed attempt: the
longer rate-limit schedule `min(30 * 2^attempt, 120)` when the failure text
carries a rate-limit signature, the standard `min(2^attempt, 60)`
otherwise. -/
def backoffFor (attempt : Nat) (o : AttemptOutcome) : Nat :=
  if is_rate_limit_error (classInput o) then min (30 * 2 ^ attempt) 120
  else min (2 ^ attempt) 60

theorem executePromptAux_ladder (policy : PromptPolicy) (enableRL : Bool)
    (limiter : Nat → LimiterOutcome) (invoke : Nat → AttemptOutcome)
    (hlim : ∀ n, enableRL = true → limiter n = .granted) :
    ∀ k remaining attempt lastErr,
      attempt + remaining = policy.max_retries + 1 →
      k < remaining →
      (∀ i, i < k → ∃ rc out err, invoke (attempt + i) = .completed rc out err ∧ rc ≠ 0) →
      ∀ out err, invoke (attempt + k) = .completed 0 out err →
      (executePromptAux policy enableRL limiter invoke remaining attempt lastErr).result
          = .ok 0 out (attempt + k) ∧
      (executePromptAux policy enableRL limiter invoke remaining attempt
        lastErr).invocations = k + 1 ∧
      (executePromptAux policy enableRL limiter invoke remaining attempt lastErr).sleeps =
        (List.range k).map (fun i => backoffFor (attempt + i) (invoke (attempt + i))) := by
  intro k
  induction k with
  | zero =>
    intro remaining attempt lastErr hsum hk hfails out err hsucc
    cases remaining with
    | zero => exact absurd hk (by omega)
    | succ r =>
      have hgate : (if enableRL then
          match limiter attempt with
          | .granted => none
          | .dailyExceeded m => some ("Rate limit exceeded: " ++ m)
          | .timedOut => some ("Rate limit exceeded: Could not acquire rate limit token within 120.0s timeout")
         else none : Option String) = none := by
        cases hRL : enableRL
        · rfl
        · rw [hlim attempt hRL]
          rfl
      rw [Nat.add_zero] at hsucc
      simp [executePromptAux, hgate, hsucc]
  | succ j ihj =>
    intro remaining attempt lastErr hsum hk hfails out err hsucc
    cases remaining with
    | zero => exact absurd hk (by omega)
    | succ r =>
      have hgate : (if enableRL then
          match limiter attempt with
          | .granted => none
          | .dailyExceeded m => some ("Rate limit exceeded: " ++ m)
          | .timedOut => some ("Rate limit exceeded: Could not acquire rate limit token within 120.0s timeout")
         else none : Option String) = none := by
        cases hRL : enableRL
        · rfl
        · rw [hlim attempt hRL]
          rfl
      obtain ⟨rc, out0, err0, hinv0, hrc0⟩ := hfails 0 (by omega)
      rw [Nat.add_zero] at hinv0
      have hrec := ihj r (attempt + 1)
        (some ("Gemini CLI exited with code " ++ toString rc ++ ": " ++
          takeStr (if err0 ≠ "" then err0 else "Exit code " ++ toString rc) 500))
        (by omega) (by omega)
        (fun i hi => by
          obtain ⟨rc', out', err', hinv', hrc'⟩ := hfails (i + 1) (by omega)
          refine ⟨rc', out', err', ?_, hrc'⟩
          rw [show attempt + 1 + i = attempt + (i + 1) from by omega]
          exact hinv')
        out err (by
          rw [show attempt + 1 + j = attempt + (j + 1) from by omega]
          exact hsucc)
      have hlt : attempt < policy.max_retries := by omega
      simp only [executePromptAux, hgate, hinv0, if_neg hrc0]
      refine ⟨?_, ?_, ?_⟩
      · rw [hrec.1]
        congr 1
        omega
      · rw [hrec.2.1]
      · rw [hrec.2.2, if_pos hlt]
        rw [List.range_succ_eq_map, List.map_cons, List.map_map, List.singleton_append]
        congr 1
        · simp [backoffFor, classInput, hinv0]
        · refine List.map_congr_left ?_
          intro i _
          simp only [Function.comp, Nat.succ_eq_add_one]
          rw [show attempt + 1 + i = attempt + (i + 1) from by omega]

/-- C6: when attempts `0..k-1` fail as completed invocations and attempt `k`
succeeds (k ≤ max_retries, rate limiter unobstructed), the backoff slept
after each failed attempt `i` is `backoffFor i`: the longer rate-limit
schedule `min(30 * 2^i, 120)` when the classified failure text carries a
rate-limit signature, the standard `min(2^i, 60)` otherwise; the run then
returns success with `retries = k` after `k + 1` invocations. -/
theorem C6_backoff_schedule (policy : PromptPolicy) (enableRL : Bool)
    (limiter : Nat → LimiterOutcome) (invoke : Nat → AttemptOutcome) (k : Nat)
    (hlim : ∀ n, enableRL = true → limiter n = .granted)
    (hk : k ≤ policy.max_retries)
    (hfails : ∀ i, i < k → ∃ rc out err, invoke i = .completed rc out err ∧ rc ≠ 0)
    (out err : String) (hsucc : invoke k = .completed 0 out err) :
    (execute_prompt policy enableRL limiter invoke false).sleeps =
      (List.range k).map (fun i => backoffFor i (invoke i)) ∧
    (execute_prompt policy enableRL limiter invoke false).result = .ok 0 out k ∧
    (execute_prompt policy enableRL limiter invoke false).invocations = k + 1 := by
  have h := executePromptAux_ladder policy enableRL limiter invoke hlim k
    (policy.max_retries + 1) 0 none (by omega) (by omega)
    (fun i hi => by simpa using hfails i hi)
    out err (by simpa using hsucc)
  refine ⟨?_, ?_, ?_⟩
  · simpa [execute_prompt] using h.2.2
  · simpa [execute_prompt] using h.1
  · simpa [execute_prompt] using h.2.1

/-- A unit driving the backoff-differentiation scenario. -/
def pC6 : PromptPolicy := mkPolicy "c6_prompt" .search .medium 3 "c6.md"

/-- First attempt fails with a 429 rate-limit stderr, second succeeds. -/
def invC6rl : Nat → AttemptOutcome := fun n =>
  if n = 0 then .completed 1 "" "Error: 429 Too Many Requests - rate limit exceeded"
  else .completed 0 "done" ""

/-- First attempt fails with a generic stderr, second succeeds. -/
def invC6std : Nat → AttemptOutcome := fun n =>
  if n = 0 then .completed 1 "" "boom" else .completed 0 "done" ""

/-- Witness for C6: a first failure whose stderr contains "429" is followed
by a 30-second backoff, a generic first failure by a 1-second backoff. -/
theorem C6_backoff_schedule_witness :
    (execute_prompt pC6 false (fun _ => .granted) invC6rl false).sleeps = [30] ∧
    (execute_prompt pC6 false (fun _ => .granted) invC6std false).sleeps = [1] := by
  have h1 := C6_backoff_schedule pC6 false (fun _ => .granted) invC6rl 1
    (fun n hn => absurd hn (by decide)) (by decide)
    (fun i hi => by
      have hi0 : i = 0 := by omega
      subst hi0
      exact ⟨1, "", "Error: 429 Too Many Requests - rate limit exceeded", rfl, by decide⟩)
    "done" "" (by decide)
  have h2 := C6_backoff_schedule pC6 false (fun _ => .granted) invC6std 1
    (fun n hn => absurd hn (by decide)) (by decide)
    (fun i hi => by
      have hi0 : i = 0 := by omega
      subst hi0
      exact ⟨1, "", "boom", rfl, by decide⟩)
    "done" "" (by decide)
  constructor
  · rw [h1.1]
    decide
  · rw [h2.1]
    decide

/-! ### C4 and C10: marker/ledger bookkeeping around the adapter call -/

theorem lookupA_foldl_insert (f : PromptPolicy → List String) :
    ∀ (l : List PromptPolicy) (acc : List (String × List String))
      (key : String) (v : List String),
      ((∃ q ∈ l, q.prompt_id = key) ∨ lookupA acc key = some v) →
      (∀ q ∈ l, q.prompt_id = key → f q = v) →
      lookupA (l.foldl (fun acc q => insertA acc q.prompt_id (f q)) acc) key = some v := by
  intro l
  induction l with
  | nil =>
    intro acc key v h hval
    rcases h with ⟨q, hq, _⟩ | hacc
    · exact absurd hq (List.not_mem_nil q)
    · simpa using hacc
  | cons q l ih =>
    intro acc key v h hval
    simp only [List.foldl_cons]
    by_cases hqk : q.prompt_id = key
    · refine ih _ key v (Or.inr ?_) ?_
      · rw [hqk, lookupA_insert_self, hval q (List.mem_cons_self q l) hqk]
      · intro q' hq' hk
        exact hval q' (List.mem_cons_of_mem q hq') hk
    · refine ih _ key v ?_ ?_
      · rcases h with ⟨q0, hq0, hk0⟩ | hacc
        · rcases List.mem_cons.mp hq0 with hq0 | hq0
          · rw [hq0] at hk0
            exact absurd hk0 hqk
          · exact Or.inl ⟨q0, hq0, hk0⟩
        · exact Or.inr (by rw [lookupA_insert_other acc q.prompt_id (f q) key hqk]; exact hacc)
      · intro q' hq' hk
        exact hval q' (List.mem_cons_of_mem q hq') hk

theorem lookupA_build_dependency_graph (repo_root date : String)
    (prompts : List PromptPolicy) (p : PromptPolicy)
    (hp : p ∈ prompts)
    (huniq : ∀ q ∈ prompts, q.prompt_id = p.prompt_id →
      depListFor repo_root prompts date q = depListFor repo_root prompts date p) :
    lookupA (build_dependency_graph repo_root prompts date) p.prompt_id =
      some (depListFor repo_root prompts date p) := by
  exact lookupA_foldl_insert (fun q => depListFor repo_root prompts date q)
    prompts [] p.prompt_id (depListFor repo_root prompts date p)
    (Or.inl ⟨p, hp, rfl⟩) huniq

/-- C4 (amended): when a unit is not skipped and the dispatch reaches the
adapter, a completion marker and exactly one ledger entry are written in
both outcomes; a success return records the dependency list computed by
`build_dependency_graph` (requiring the registry's unique-id invariant for
the dict lookup) and the output path, while the `GeminiCLIError` path
records empty inputs and outputs. -/
theorem C4_ledger_bookkeeping (env : RunnerEnv) (all_prompts : List PromptPolicy)
    (p : PromptPolicy) (st : FSState)
    (limiter : Nat → LimiterOutcome) (invoke : Nat → AttemptOutcome)
    (hbeh : env.behavior p.prompt_id = .adapter limiter invoke)
    (hskip : is_completed st (get_output_path env.repo_root p env.date)
      (memB p.prompt_id env.forced_prompts || memB p.wave env.forced_waves)
      env.forced_prompts env.forced_waves (some p) = false)
    (hp : p ∈ all_prompts)
    (huniq : ∀ q ∈ all_prompts, q.prompt_id = p.prompt_id →
      depListFor env.repo_root all_prompts env.date q =
        depListFor env.repo_root all_prompts env.date p) :
    (∃ m, lookupA (execute_single_prompt env all_prompts p st).state.markers
        (marker_path (get_output_path env.repo_root p env.date)) = some m ∧
      m.prompt_id = p.prompt_id) ∧
    (execute_single_prompt env all_prompts p st).ledger.length = 1 ∧
    (∀ ec out retries,
      (execute_prompt p env.enableRL limiter invoke env.dry_run).result =
        .ok ec out retries →
      ∃ e, (execute_single_prompt env all_prompts p st).ledger = [e] ∧
        e.dependent_inputs = depListFor env.repo_root all_prompts env.date p ∧
        e.output_paths = [get_output_path env.repo_root p env.date] ∧
        e.success = decide (ec = 0) ∧ e.retries = retries) ∧
    (∀ msg,
      (execute_prompt p env.enableRL limiter invoke env.dry_run).result =
        .toolError msg →
      ∃ e, (execute_single_prompt env all_prompts p st).ledger = [e] ∧
        e.dependent_inputs = [] ∧ e.output_paths = [] ∧ e.success = false) := by
  have hdeps := lookupA_build_dependency_graph env.repo_root env.date all_prompts p hp huniq
  cases hres : (execute_prompt p env.enableRL limiter invoke env.dry_run).result with
  | ok ec out retries =>
    refine ⟨?_, ?_, ?_, ?_⟩
    · simp only [execute_single_prompt, hskip, if_neg, Bool.not_eq_true, hbeh, hres,
        write_completion_marker]
      exact ⟨_, lookupA_insert_self _ _ _, rfl⟩
    · simp [execute_single_prompt, hskip, hbeh, hres]
    · intro ec' out' retries' hres'
      cases hres'
      simp only [execute_single_prompt, hskip, if_neg, Bool.not_eq_true, hbeh, hres]
      exact ⟨_, rfl, by rw [hdeps]; rfl, rfl, rfl, rfl⟩
    · intro msg hres'
      cases hres'
  | toolError msg =>
    refine ⟨?_, ?_, ?_, ?_⟩
    · simp only [execute_single_prompt, hskip, if_neg, Bool.not_eq_true, hbeh, hres,
        write_completion_marker]
      exact ⟨_, lookupA_insert_self _ _ _, rfl⟩
    · simp [execute_single_prompt, hskip, hbeh, hres]
    · intro ec' out' retries' hres'
      cases hres'
    · intro msg' hres'
      cases hres'
      simp only [execute_single_prompt, hskip, if_neg, Bool.not_eq_true, hbeh, hres]
      exact ⟨_, rfl, rfl, rfl, rfl⟩

/-- A search unit for the C4/C10 scenarios. -/
def pC4s : PromptPolicy := mkPolicy "s_c4" .search .medium 0 "s_c4.md"

/-- An aggregator unit (non-empty dependency list) for the C4/C10
scenarios. -/
def pC4a : PromptPolicy := mkPolicy "agg_c4" .aggregator .sequential 0 "report_{date}.md"

/-- The empty filesystem. -/
def st0 : FSState := { files := [], markers := [] }

/-- An environment whose adapter always fails (exit 1, stderr "boom"). -/
def envC4 : RunnerEnv :=
  { repo_root := "/repo", date := "2025-11-14", run_id := "r1",
    registry_hash := "rh", config_fingerprint := "cf", forced_prompts := [],
    forced_waves := [], dry_run := false, enableRL := false,
    behavior := fun _ =>
      .adapter (fun _ => .granted) (fun _ => .completed 1 "" "boom") }

/-- C4 (counterexample): when the adapter raises its typed error, the ledger
entry's declared input list is empty even though the aggregator unit's
computed dependency list is not — refuting "in every such ledger entry the
declared input list equals the unit's computed dependency list". -/
theorem C4_counterexample :
    ((execute_single_prompt envC4 [pC4s, pC4a] pC4a st0).ledger.map
      (fun e => e.dependent_inputs)) = [[]] ∧
    depListFor "/repo" [pC4s, pC4a] "2025-11-14" pC4a =
      ["/repo/data/outputs/daily/2025-11-14/s_c4.md"] ∧
    (([] : List String) ≠ ["/repo/data/outputs/daily/2025-11-14/s_c4.md"]) := by
  decide

/-- The always-granted limiter oracle for the C4 witness. -/
def limOkC4 : Nat → LimiterOutcome := fun _ => .granted

/-- A first-attempt success oracle for the C4 witness. -/
def invOkC4 : Nat → AttemptOutcome := fun _ => .completed 0 "report content" ""

/-- Like `envC4` but with a succeeding adapter. -/
def envC4ok : RunnerEnv :=
  { repo_root := "/repo", date := "2025-11-14", run_id := "r1",
    registry_hash := "rh", config_fingerprint := "cf", forced_prompts := [],
    forced_waves := [], dry_run := false, enableRL := false,
    behavior := fun _ => .adapter limOkC4 invOkC4 }

/-- Witness for C4: a successful aggregator execution writes one ledger
entry whose declared inputs are the computed dependency list and whose
output list is the resolved output path. -/
theorem C4_ledger_bookkeeping_witness :
    (execute_single_prompt envC4ok [pC4s, pC4a] pC4a st0).ledger.length = 1 ∧
    (∃ e, (execute_single_prompt envC4ok [pC4s, pC4a] pC4a st0).ledger = [e] ∧
      e.dependent_inputs = depListFor "/repo" [pC4s, pC4a] "2025-11-14" pC4a ∧
      e.output_paths = [get_output_path "/repo" pC4a "2025-11-14"] ∧
      e.success = decide ((0 : Int) = 0) ∧ e.retries = 0) := by
  have h := C4_ledger_bookkeeping envC4ok [pC4s, pC4a] pC4a st0 limOkC4 invOkC4
    rfl (by decide) (by decide) (by decide)
  exact ⟨h.2.1, h.2.2.1 0 "report content" 0 (by decide)⟩

/-- C10: whenever the adapter raises its typed `GeminiCLIError` for a
non-skipped unit, the completion marker records exit code 1 and retries 0
regardless of the actual attempt count, and the ledger entry records a
failure with empty declared inputs and empty output paths. -/
theorem C10_failure_defaults (env : RunnerEnv) (all_prompts : List PromptPolicy)
    (p : PromptPolicy) (st : FSState)
    (limiter : Nat → LimiterOutcome) (invoke : Nat → AttemptOutcome) (msg : String)
    (hbeh : env.behavior p.prompt_id = .adapter limiter invoke)
    (hskip : is_completed st (get_output_path env.repo_root p env.date)
      (memB p.prompt_id env.forced_prompts || memB p.wave env.forced_waves)
      env.forced_prompts env.forced_waves (some p) = false)
    (herr : (execute_prompt p env.enableRL limiter invoke env.dry_run).result =
      .toolError msg) :
    (∃ m, lookupA (execute_single_prompt env all_prompts p st).state.markers
        (marker_path (get_output_path env.repo_root p env.date)) = some m ∧
      m.exit_code = 1 ∧ m.retries = 0 ∧ m.error_message = some msg) ∧
    (∃ e, (execute_single_prompt env all_prompts p st).ledger = [e] ∧
      e.success = false ∧ e.retries = 0 ∧ e.dependent_inputs = [] ∧
      e.output_paths = [] ∧ e.error_message = some msg) := by
  constructor
  · simp only [execute_single_prompt, hskip, if_neg, Bool.not_eq_true, hbeh, herr,
      write_completion_marker]
    exact ⟨_, lookupA_insert_self _ _ _, rfl, rfl, rfl⟩
  · simp only [execute_single_prompt, hskip, if_neg, Bool.not_eq_true, hbeh, herr]
    exact ⟨_, rfl, rfl, rfl, rfl, rfl, rfl⟩

/-- Witness for C10: the always-failing adapter of `envC4` (one attempt,
`max_retries = 0`) leaves a marker with exit code 1 and retries 0 and a
failed ledger entry with empty inputs and outputs. -/
theorem C10_failure_defaults_witness :
    (∃ m, lookupA (execute_single_prompt envC4 [pC4s, pC4a] pC4a st0).state.markers
        (marker_path (get_output_path "/repo" pC4a "2025-11-14")) = some m ∧
      m.exit_code = 1 ∧ m.retries = 0 ∧
      m.error_message = some "Failed to execute prompt agg_c4 after 1 attempts. Last error: Gemini CLI exited with code 1: boom") ∧
    (∃ e, (execute_single_prompt envC4 [pC4s, pC4a] pC4a st0).ledger = [e] ∧
      e.success = false ∧ e.retries = 0 ∧ e.dependent_inputs = [] ∧
      e.output_paths = [] ∧
      e.error_message = some "Failed to execute prompt agg_c4 after 1 attempts. Last error: Gemini CLI exited with code 1: boom") :=
  C10_failure_defaults envC4 [pC4s, pC4a] pC4a st0
    (fun _ => .granted) (fun _ => .completed 1 "" "boom")
    "Failed to execute prompt agg_c4 after 1 attempts. Last error: Gemini CLI exited with code 1: boom"
    rfl (by decide) (by decide)

/-! ### C9: wave isolation -/

theorem execute_single_prompt_exn (env : RunnerEnv) (all_prompts : List PromptPolicy)
    (p : PromptPolicy) (st : FSState) (m : String)
    (h : (execute_single_prompt env all_prompts p st).outcome = .exn m) :
    execute_single_prompt env all_prompts p st =
      { outcome := .exn m, state := st, ledger := [], invocations := 0 } := by
  by_cases hc : is_completed st (get_output_path env.repo_root p env.date)
      (memB p.prompt_id env.forced_prompts || memB p.wave env.forced_waves)
      env.forced_prompts env.forced_waves (some p) = true
  · simp [execute_single_prompt, hc] at h
  · rw [Bool.not_eq_true] at hc
    cases hb : env.behavior p.prompt_id with
    | raises m' =>
      have heq : execute_single_prompt env all_prompts p st =
          { outcome := .exn m', state := st, ledger := [], invocations := 0 } := by
        simp [execute_single_prompt, hc, hb]
      rw [heq] at h
      simp only [SingleOutcome.exn.injEq] at h
      rw [heq, h]
    | adapter limiter invoke =>
      cases hres : (execute_prompt p env.enableRL limiter invoke env.dry_run).result with
      | ok ec out retries => simp [execute_single_prompt, hc, hb, hres] at h
      | toolError msg => simp [execute_single_prompt, hc, hb, hres] at h

theorem run_wave_units_append (env : RunnerEnv) (all_prompts : List PromptPolicy) :
    ∀ (l1 l2 : List PromptPolicy) (st : FSState),
      run_wave_units env all_prompts (l1 ++ l2) st =
        { completed := (run_wave_units env all_prompts l1 st).completed ++
            (run_wave_units env all_prompts l2
              (run_wave_units env all_prompts l1 st).state).completed,
          failed := (run_wave_units env all_prompts l1 st).failed ++
            (run_wave_units env all_prompts l2
              (run_wave_units env all_prompts l1 st).state).failed,
          state := (run_wave_units env all_prompts l2
            (run_wave_units env all_prompts l1 st).state).state,
          ledger := (run_wave_units env all_prompts l1 st).ledger ++
            (run_wave_units env all_prompts l2
              (run_wave_units env all_prompts l1 st).state).ledger,
          invocations := (run_wave_units env all_prompts l1 st).invocations +
            (run_wave_units env all_prompts l2
              (run_wave_units env all_prompts l1 st).state).invocations } := by
  intro l1
  induction l1 with
  | nil => intro l2 st; simp [run_wave_units]
  | cons p l1 ih =>
    intro l2 st
    simp only [List.cons_append, run_wave_units, List.append_eq]
    rw [ih]
    cases h : (execute_single_prompt env all_prompts p st).outcome with
    | ok b =>
      cases b <;> simp [h, List.append_assoc, Nat.add_assoc]
    | exn m =>
      simp [h, List.append_assoc, Nat.add_assoc]

theorem run_wave_units_length (env : RunnerEnv) (all_prompts : List PromptPolicy) :
    ∀ (l : List PromptPolicy) (st : FSState),
      (run_wave_units env all_prompts l st).completed.length +
        (run_wave_units env all_prompts l st).failed.length = l.length := by
  intro l
  induction l with
  | nil => intro st; simp [run_wave_units]
  | cons p l ih =>
    intro st
    have hrest := ih (execute_single_prompt env all_prompts p st).state
    simp only [run_wave_units]
    cases h : (execute_single_prompt env all_prompts p st).outcome with
    | ok b =>
      cases b <;> simp [h] <;> omega
    | exn m =>
      simp [h]
      omega

/-- C9: a unit whose dispatch raises an unexpected exception contributes
exactly one entry to the failed list, leaves the filesystem, ledger and
invocation count untouched, and its siblings behave exactly as they would
without it; moreover every dispatched unit's id lands in exactly one of the
completed/failed lists (their lengths always sum to the wave's length). -/
theorem C9_wave_isolation (env : RunnerEnv) (all_prompts : List PromptPolicy)
    (l1 l2 : List PromptPolicy) (u : PromptPolicy) (m : String) (st : FSState)
    (hexn : (execute_single_prompt env all_prompts u
      (run_wave_units env all_prompts l1 st).state).outcome = .exn m) :
    run_wave_units env all_prompts (l1 ++ u :: l2) st =
      { completed := (run_wave_units env all_prompts l1 st).completed ++
          (run_wave_units env all_prompts l2
            (run_wave_units env all_prompts l1 st).state).completed,
        failed := (run_wave_units env all_prompts l1 st).failed ++
          u.prompt_id :: (run_wave_units env all_prompts l2
            (run_wave_units env all_prompts l1 st).state).failed,
        state := (run_wave_units env all_prompts l2
          (run_wave_units env all_prompts l1 st).state).state,
        ledger := (run_wave_units env all_prompts l1 st).ledger ++
          (run_wave_units env all_prompts l2
            (run_wave_units env all_prompts l1 st).state).ledger,
        invocations := (run_wave_units env all_prompts l1 st).invocations +
          (run_wave_units env all_prompts l2
            (run_wave_units env all_prompts l1 st).state).invocations } ∧
    (∀ (l : List PromptPolicy) (st0 : FSState),
      (run_wave_units env all_prompts l st0).completed.length +
        (run_wave_units env all_prompts l st0).failed.length = l.length) := by
  constructor
  · rw [run_wave_units_append]
    have hstep := execute_single_prompt_exn env all_prompts u
      (run_wave_units env all_prompts l1 st).state m hexn
    conv_lhs => rw [show (u :: l2) = [u] ++ l2 from rfl, run_wave_units_append]
    simp [run_wave_units, hstep]
  · exact run_wave_units_length env all_prompts

/-- Sibling unit dispatched before the raising unit. -/
def pC9a : PromptPolicy := mkPolicy "a9" .search .medium 0 "a9.md"

/-- The unit whose dispatch raises an unexpected exception. -/
def pC9u : PromptPolicy := mkPolicy "u9" .search .medium 0 "u9.md"

/-- Sibling unit dispatched after the raising unit. -/
def pC9b : PromptPolicy := mkPolicy "b9" .search .medium 0 "b9.md"

/-- An environment in which only `u9`'s dispatch raises. -/
def envC9 : RunnerEnv :=
  { repo_root := "/repo", date := "2025-11-14", run_id := "r9",
    registry_hash := "rh", config_fingerprint := "cf", forced_prompts := [],
    forced_waves := [], dry_run := false, enableRL := false,
    behavior := fun id =>
      if id = "u9" then .raises "boom"
      else .adapter (fun _ => .granted) (fun _ => .completed 0 "ok" "") }

/-- Witness for C9: with `u9` raising between two healthy siblings, both
siblings complete and `u9` is recorded as exactly the one failure. -/
theorem C9_wave_isolation_witness :
    (run_wave_units envC9 [pC9a, pC9u, pC9b] ([pC9a] ++ pC9u :: [pC9b]) st0).completed =
      ["a9", "b9"] ∧
    (run_wave_units envC9 [pC9a, pC9u, pC9b] ([pC9a] ++ pC9u :: [pC9b]) st0).failed =
      ["u9"] := by
  have h := (C9_wave_isolation envC9 [pC9a, pC9u, pC9b] [pC9a] [pC9b] pC9u "boom" st0
    (by decide)).1
  rw [h]
  exact ⟨by decide, by decide⟩

/-! ### C1: idempotence of a fully successful wave -/

/-- "This output is valid as it stands": the completion check with no
forcing and no policy-based overrides. -/
def pathDone (st : FSState) (path : String) : Bool :=
  is_completed st path false [] [] none

theorem is_completed_noforce (st : FSState) (path : String) (p : PromptPolicy) :
    is_completed st path false [] [] (some p) = pathDone st path := by
  simp [is_completed, pathDone, memB]

theorem pathDone_congr {st st' : FSState} (path : String)
    (hf : lookupA st'.files path = lookupA st.files path)
    (hm : lookupA st'.markers (marker_path path) =
      lookupA st.markers (marker_path path)) :
    pathDone st' path = pathDone st path := by
  simp only [pathDone, is_completed, read_completion_marker, hf, hm]

theorem applyWrites_markers (st : FSState) (path : String) (ws : List String) :
    (applyWrites st path ws).markers = st.markers := by
  induction ws generalizing st with
  | nil => rfl
  | cons w ws ih => simpa [applyWrites, List.foldl_cons] using ih _

theorem applyWrites_files_other (st : FSState) (path q : String) (ws : List String)
    (h : path ≠ q) :
    lookupA (applyWrites st path ws).files q = lookupA st.files q := by
  induction ws generalizing st with
  | nil => rfl
  | cons w ws ih =>
    rw [show applyWrites st path (w :: ws) =
      applyWrites { st with files := insertA st.files path w } path ws from rfl, ih]
    exact lookupA_insert_other _ _ _ _ h

theorem applyWrites_files_self (path w : String) :
    ∀ (ws : List String) (st : FSState), ws.getLast? = some w →
      lookupA (applyWrites st path ws).files path = some w := by
  intro ws
  induction ws with
  | nil => intro st h; simp at h
  | cons a ws ih =>
    intro st h
    cases ws with
    | nil =>
      simp at h
      subst h
      exact lookupA_insert_self _ _ _
    | cons b ws' =>
      rw [List.getLast?_cons_cons] at h
      exact ih _ h

theorem executePromptAux_ok (policy : PromptPolicy) (enableRL : Bool)
    (limiter : Nat → LimiterOutcome) (invoke : Nat → AttemptOutcome) :
    ∀ remaining attempt lastErr (ec : Int) (out : String) (r : Nat),
      (executePromptAux policy enableRL limiter invoke remaining attempt lastErr).result
        = .ok ec out r →
      ec = 0 ∧
      (executePromptAux policy enableRL limiter invoke remaining attempt
        lastErr).fileWrites.getLast? = some out := by
  intro remaining
  induction remaining with
  | zero =>
    intro attempt lastErr ec out r h
    simp [executePromptAux] at h
  | succ k ih =>
    intro attempt lastErr ec out r h
    cases hg : (if enableRL then
        match limiter attempt with
        | .granted => none
        | .dailyExceeded m => some ("Rate limit exceeded: " ++ m)
        | .timedOut => some ("Rate limit exceeded: Could not acquire rate limit token within 120.0s timeout")
       else none : Option String) with
    | some msg =>
      simp only [executePromptAux, hg] at h ⊢
      exact ih (attempt + 1) (some msg) ec out r h
    | none =>
      cases hinv : invoke attempt with
      | completed rc outText errText =>
        by_cases hrc : rc = 0
        · subst hrc
          simp only [executePromptAux, hg, hinv, if_pos] at h ⊢
          rw [ExecResult.ok.injEq] at h
          obtain ⟨h1, h2, _⟩ := h
          exact ⟨h1.symm, by rw [h2]; rfl⟩
        · simp only [executePromptAux, hg, hinv, if_neg hrc] at h ⊢
          have hrec := ih (attempt + 1) _ ec out r h
          refine ⟨hrec.1, ?_⟩
          have h2 := hrec.2
          cases hlast : (executePromptAux policy enableRL limiter invoke k (attempt + 1)
              (some ("Gemini CLI exited with code " ++ toString rc ++ ": " ++
                takeStr (if errText ≠ "" then errText
                         else "Exit code " ++ toString rc) 500))).fileWrites with
          | nil => rw [hlast] at h2; simp at h2
          | cons b l =>
            rw [hlast] at h2
            rw [List.getLast?_cons_cons]
            exact h2
      | subprocessTimeout =>
        simp only [executePromptAux, hg, hinv] at h ⊢
        exact ih (attempt + 1) _ ec out r h

theorem execute_single_ok_true_pathDone (env : RunnerEnv)
    (all_prompts : List PromptPolicy) (p : PromptPolicy) (st : FSState)
    (hfp : env.forced_prompts = []) (hfw : env.forced_waves = [])
    (hdr : env.dry_run = false)
    (hok : (execute_single_prompt env all_prompts p st).outcome = .ok true) :
    ∀ x, (marker_path x = marker_path (get_output_path env.repo_root p env.date) →
        x = get_output_path env.repo_root p env.date) →
      (pathDone st x = true ∨ x = get_output_path env.repo_root p env.date) →
      pathDone (execute_single_prompt env all_prompts p st).state x = true := by
  intro x hmp hx
  by_cases hc : is_completed st (get_output_path env.repo_root p env.date)
      (memB p.prompt_id env.forced_prompts || memB p.wave env.forced_waves)
      env.forced_prompts env.forced_waves (some p) = true
  · have hstep : execute_single_prompt env all_prompts p st =
        { outcome := .ok true, state := st, ledger := [], invocations := 0 } := by
      simp [execute_single_prompt, hc]
    rw [hstep]
    rcases hx with hx | hx
    · exact hx
    · subst hx
      rw [hfp, hfw] at hc
      rwa [show (memB p.prompt_id ([] : List String) ||
        memB p.wave ([] : List WaveType)) = false from rfl, is_completed_noforce] at hc
  · rw [Bool.not_eq_true] at hc
    cases hb : env.behavior p.prompt_id with
    | raises m => simp [execute_single_prompt, hc, hb] at hok
    | adapter limiter invoke =>
      cases hres : (execute_prompt p env.enableRL limiter invoke false).result with
      | toolError msg =>
        simp [execute_single_prompt, hc, hb, hres, hdr] at hok
      | ok ec out retries =>
        have hec : ec = 0 := by
          have h := hok
          simp [execute_single_prompt, hc, hb, hres, hdr] at h
          exact h
        subst hec
        have hlast := (executePromptAux_ok p env.enableRL limiter invoke
          (p.max_retries + 1) 0 none 0 out retries hres).2
        have hstate : (execute_single_prompt env all_prompts p st).state =
            write_completion_marker
              (applyWrites st (get_output_path env.repo_root p env.date)
                (execute_prompt p env.enableRL limiter invoke false).fileWrites)
              (get_output_path env.repo_root p env.date) p.prompt_id 0 retries none := by
          simp [execute_single_prompt, hc, hb, hres, hdr]
        rw [hstate]
        have hfile : lookupA (applyWrites st (get_output_path env.repo_root p env.date)
            (execute_prompt p env.enableRL limiter invoke false).fileWrites).files
            (get_output_path env.repo_root p env.date) = some out :=
          applyWrites_files_self _ out _ st hlast
        by_cases hxp : x = get_output_path env.repo_root p env.date
        · subst hxp
          simp [pathDone, is_completed, read_completion_marker,
            write_completion_marker, hfile, lookupA_insert_self,
            compute_file_hash_ne_empty]
        · rcases hx with hx | hx
          · have hf : lookupA (write_completion_marker
                (applyWrites st (get_output_path env.repo_root p env.date)
                  (execute_prompt p env.enableRL limiter invoke false).fileWrites)
                (get_output_path env.repo_root p env.date) p.prompt_id 0 retries
                none).files x = lookupA st.files x := by
              rw [show ∀ (s : FSState) path pid ecx rx em,
                (write_completion_marker s path pid ecx rx em).files = s.files
                from fun _ _ _ _ _ _ => rfl]
              exact applyWrites_files_other st _ x _ (fun hcontra => hxp hcontra.symm)
            have hm : lookupA (write_completion_marker
                (applyWrites st (get_output_path env.repo_root p env.date)
                  (execute_prompt p env.enableRL limiter invoke false).fileWrites)
                (get_output_path env.repo_root p env.date) p.prompt_id 0 retries
                none).markers (marker_path x) = lookupA st.markers (marker_path x) := by
              simp only [write_completion_marker]
              rw [lookupA_insert_other _ _ _ (marker_path x)
                (fun hcontra => hxp (hmp hcontra.symm))]
              rw [applyWrites_markers]
            rw [pathDone_congr x hf hm]
            exact hx
          · exact absurd hx hxp

theorem run_wave_preserves_pathDone (env : RunnerEnv) (all_prompts : List PromptPolicy)
    (hfp : env.forced_prompts = []) (hfw : env.forced_waves = [])
    (hdr : env.dry_run = false) :
    ∀ (l : List PromptPolicy) (st : FSState) (x : String),
      (∀ q ∈ l, marker_path x = marker_path (get_output_path env.repo_root q env.date) →
        x = get_output_path env.repo_root q env.date) →
      (run_wave_units env all_prompts l st).failed = [] →
      pathDone st x = true →
      pathDone (run_wave_units env all_prompts l st).state x = true := by
  intro l
  induction l with
  | nil => intro st x _ _ hx; simpa [run_wave_units] using hx
  | cons p l ih =>
    intro st x hmp hfail hx
    cases ho : (execute_single_prompt env all_prompts p st).outcome with
    | ok b =>
      cases b
      · exfalso
        simp [run_wave_units, ho] at hfail
      · have h1 := execute_single_ok_true_pathDone env all_prompts p st hfp hfw hdr ho
          x (hmp p (List.mem_cons_self p l)) (Or.inl hx)
        have hfail' : (run_wave_units env all_prompts l
            (execute_single_prompt env all_prompts p st).state).failed = [] := by
          simpa [run_wave_units, ho] using hfail
        have h2 := ih (execute_single_prompt env all_prompts p st).state x
          (fun q hq => hmp q (List.mem_cons_of_mem p hq)) hfail' h1
        simpa [run_wave_units, ho] using h2
    | exn m =>
      exfalso
      simp [run_wave_units, ho] at hfail

theorem run_wave_success (env : RunnerEnv) (all_prompts : List PromptPolicy)
    (hfp : env.forced_prompts = []) (hfw : env.forced_waves = [])
    (hdr : env.dry_run = false) :
    ∀ (l : List PromptPolicy) (st : FSState),
      (∀ p ∈ l, ∀ q ∈ l,
        marker_path (get_output_path env.repo_root p env.date) =
          marker_path (get_output_path env.repo_root q env.date) →
        get_output_path env.repo_root p env.date =
          get_output_path env.repo_root q env.date) →
      (run_wave_units env all_prompts l st).failed = [] →
      (∀ p ∈ l, pathDone (run_wave_units env all_prompts l st).state
        (get_output_path env.repo_root p env.date) = true) ∧
      (run_wave_units env all_prompts l st).completed =
        l.map (fun p => p.prompt_id) := by
  intro l
  induction l with
  | nil =>
    intro st _ _
    exact ⟨fun p hp => absurd hp (List.not_mem_nil p), by simp [run_wave_units]⟩
  | cons p l ih =>
    intro st hinj hfail
    cases ho : (execute_single_prompt env all_prompts p st).outcome with
    | ok b =>
      cases b
      · exfalso
        simp [run_wave_units, ho] at hfail
      · have hfail' : (run_wave_units env all_prompts l
            (execute_single_prompt env all_prompts p st).state).failed = [] := by
          simpa [run_wave_units, ho] using hfail
        have hown := execute_single_ok_true_pathDone env all_prompts p st hfp hfw hdr ho
          (get_output_path env.repo_root p env.date) (fun _ => rfl) (Or.inr rfl)
        have hpres := run_wave_preserves_pathDone env all_prompts hfp hfw hdr l
          (execute_single_prompt env all_prompts p st).state
          (get_output_path env.repo_root p env.date)
          (fun q hq => hinj p (List.mem_cons_self p l) q (List.mem_cons_of_mem p hq))
          hfail' hown
        have hrest := ih (execute_single_prompt env all_prompts p st).state
          (fun a ha b hb => hinj a (List.mem_cons_of_mem p ha)
            b (List.mem_cons_of_mem p hb)) hfail'
        constructor
        · intro q hq
          rcases List.mem_cons.mp hq with hq | hq
          · subst hq
            simpa [run_wave_units, ho] using hpres
          · have := hrest.1 q hq
            simpa [run_wave_units, ho] using this
        · simp [run_wave_units, ho, hrest.2]
    | exn m =>
      exfalso
      simp [run_wave_units, ho] at hfail

theorem run_wave_all_done (env : RunnerEnv) (all_prompts : List PromptPolicy)
    (hfp : env.forced_prompts = []) (hfw : env.forced_waves = []) :
    ∀ (l : List PromptPolicy) (st : FSState),
      (∀ p ∈ l, pathDone st (get_output_path env.repo_root p env.date) = true) →
      run_wave_units env all_prompts l st =
        { completed := l.map (fun p => p.prompt_id), failed := [], state := st,
          ledger := [], invocations := 0 } := by
  intro l
  induction l with
  | nil => intro st _; simp [run_wave_units]
  | cons p l ih =>
    intro st hall
    have hc : is_completed st (get_output_path env.repo_root p env.date)
        (memB p.prompt_id env.forced_prompts || memB p.wave env.forced_waves)
        env.forced_prompts env.forced_waves (some p) = true := by
      rw [hfp, hfw, show (memB p.prompt_id ([] : List String) ||
        memB p.wave ([] : List WaveType)) = false from rfl, is_completed_noforce]
      exact hall p (List.mem_cons_self p l)
    have hstep : execute_single_prompt env all_prompts p st =
        { outcome := .ok true, state := st, ledger := [], invocations := 0 } := by
      simp [execute_single_prompt, hc]
    have hrest := ih st (fun q hq => hall q (List.mem_cons_of_mem p hq))
    simp [run_wave_units, hstep, hrest]

/-- An always-failing search unit environment for the C1 counterexample. -/
def envC1fail : RunnerEnv :=
  { repo_root := "/repo", date := "2025-11-14", run_id := "r1",
    registry_hash := "rh", config_fingerprint := "cf", forced_prompts := [],
    forced_waves := [], dry_run := false, enableRL := false,
    behavior := fun _ =>
      .adapter (fun _ => .granted) (fun _ => .completed 1 "" "err") }

/-- The search unit for the C1 scenarios. -/
def pC1 : PromptPolicy := mkPolicy "c1" .search .medium 0 "c1.md"

/-- C1 (counterexample): when the single unit's first run failed, the second
run with no forcing invokes the external tool once more, refuting "zero
invocations of the external tool during the second run". -/
theorem C1_counterexample :
    (execute_wave envC1fail .search [pC1]
      (execute_wave envC1fail .search [pC1] st0).state).invocations = 1 := by
  decide

/-- C1 (amended): if the first `execute_wave` run for a (date, wave, unit
set) reports no failures, and distinct resolved outputs of the wave's units
have distinct marker sidecar paths (the sidecar is named from the output's
directory and stem only, so two outputs differing just in extension share
one sidecar and can invalidate each other — see
`rerun_reinvokes_on_stem_collision`), then a second run with no forcing and
no dry-run performs zero external tool invocations, appends nothing to the
ledger, changes no state, fails nothing, and returns the same completed id
list. -/
theorem C1_idempotent_after_success (env : RunnerEnv) (wave : WaveType)
    (prompts : List PromptPolicy) (st : FSState)
    (hfp : env.forced_prompts = []) (hfw : env.forced_waves = [])
    (hdr : env.dry_run = false)
    (hinj : ∀ p ∈ prompts.filter (fun p => decide (p.wave = wave)),
      ∀ q ∈ prompts.filter (fun p => decide (p.wave = wave)),
      marker_path (get_output_path env.repo_root p env.date) =
        marker_path (get_output_path env.repo_root q env.date) →
      get_output_path env.repo_root p env.date =
        get_output_path env.repo_root q env.date)
    (hok : (execute_wave env wave prompts st).failed = []) :
    execute_wave env wave prompts (execute_wave env wave prompts st).state =
      { completed := (execute_wave env wave prompts st).completed,
        failed := [], state := (execute_wave env wave prompts st).state,
        ledger := [], invocations := 0 } := by
  have h := run_wave_success env prompts hfp hfw hdr
    (prompts.filter (fun p => decide (p.wave = wave))) st hinj hok
  have h2 := run_wave_all_done env prompts hfp hfw
    (prompts.filter (fun p => decide (p.wave = wave)))
    (execute_wave env wave prompts st).state h.1
  show run_wave_units env prompts (prompts.filter (fun p => decide (p.wave = wave)))
    (execute_wave env wave prompts st).state = _
  rw [h2]
  have h3 : (execute_wave env wave prompts st).completed =
      (prompts.filter (fun p => decide (p.wave = wave))).map
        (fun p => p.prompt_id) := h.2
  rw [h3]

/-- An always-succeeding search unit environment for the C1 witness. -/
def envC1ok : RunnerEnv :=
  { repo_root := "/repo", date := "2025-11-14", run_id := "r1",
    registry_hash := "rh", config_fingerprint := "cf", forced_prompts := [],
    forced_waves := [], dry_run := false, enableRL := false,
    behavior := fun _ =>
      .adapter (fun _ => .granted) (fun _ => .completed 0 "c1 output" "") }

/-- Witness for C1: after one fully successful run, the rerun is a pure
no-op that re-reports the same completed list. -/
theorem C1_idempotent_after_success_witness :
    execute_wave envC1ok .search [pC1] (execute_wave envC1ok .search [pC1] st0).state =
      { completed := (execute_wave envC1ok .search [pC1] st0).completed,
        failed := [], state := (execute_wave envC1ok .search [pC1] st0).state,
        ledger := [], invocations := 0 } :=
  C1_idempotent_after_success envC1ok .search [pC1] st0 rfl rfl rfl
    (by decide) (by decide)

/-- Two search units whose outputs share directory and stem (`report.md`
and `report.txt`) and therefore share one marker sidecar. -/
def pColl1 : PromptPolicy := mkPolicy "coll1" .search .medium 0 "report.md"

/-- See `pColl1`. -/
def pColl2 : PromptPolicy := mkPolicy "coll2" .search .medium 0 "report.txt"

/-- An environment whose adapter succeeds with per-unit distinct stdout. -/
def envColl : RunnerEnv :=
  { repo_root := "/repo", date := "2025-11-14", run_id := "rc",
    registry_hash := "rh", config_fingerprint := "cf", forced_prompts := [],
    forced_waves := [], dry_run := false, enableRL := false,
    behavior := fun id =>
      .adapter (fun _ => .granted)
        (fun _ => .completed 0 (if id = "coll1" then "one" else "two") "") }

/-- Why the distinct-sidecar hypothesis of the amended C1 is necessary: two
units whose outputs differ only in extension share one sidecar, the second
success overwrites the first unit's marker with the other file's hash, and
the rerun after a fully successful first run re-invokes both units. -/
theorem rerun_reinvokes_on_stem_collision :
    (execute_wave envColl .search [pColl1, pColl2] st0).failed = [] ∧
    marker_path (get_output_path "/repo" pColl1 "2025-11-14") =
      marker_path (get_output_path "/repo" pColl2 "2025-11-14") ∧
    get_output_path "/repo" pColl1 "2025-11-14" ≠
      get_output_path "/repo" pColl2 "2025-11-14" ∧
    (execute_wave envColl .search [pColl1, pColl2]
      (execute_wave envColl .search [pColl1, pColl2] st0).state).invocations = 2 := by
  decide
